import Mathlib

/-!
# Real-Time Order Processor — verification of the core

Shallow embedding of the order-processing core of
`ali-assar/Real-Time-Order-Processor`:

* `internal/pkg/models/model.go` — `Order`, `ProcessedOrder`, `ProcessingStats`,
  `ValidationError`;
* `internal/processor/pool.go` — `Start`, `Close`, `worker`, `processOrder`,
  `validateOrderForProcessing`, `applyBusinessRules`, `Stats`, `GetQueueLength`,
  `IsHealthy`;
* `internal/handler/handler.go` — the non-blocking admission `select` in
  `CreateOrderHandler`.

Modelling decisions, recorded once here:

* Go `float64` amounts are modelled as `ℚ`.  The code only ever compares an
  amount against the literal thresholds `10000` and `1000` and never computes
  with it, so on every non-NaN value the Go comparison agrees with the
  rational one (and pre-validated orders have `amount > 0`, excluding NaN).
* Go `int64` counters are modelled as `Int`; the workloads reachable in the
  model never approach `2^63`, so wrap-around is irrelevant.
* Wall-clock values (`time.Now`, `time.Since`, `time.Sleep`) are not
  computable in a shallow embedding.  `processOrder` therefore takes the
  measured elapsed time (milliseconds, nonnegative) as an explicit parameter,
  and `Stats` takes the elapsed uptime as a parameter.  The `CreatedAt` /
  `ProcessedAt` timestamp fields, which no claim inspects, are elided from
  the records.
* The concurrent pool (`worker` goroutines, channel operations, `Close`) is
  modelled as a small-step transition relation `Step` on `PoolState`
  below, one constructor per atomic action of the Go code; `admitted` and
  `dropped` are ghost counters used only to state specifications.
-/

namespace OrderProcessor

/-- `models.Order` (model.go).  `CreatedAt` elided (wall clock, unused by the
processing logic).  `Priority` is a Go `int`. -/
structure Order where
  id : String
  amount : ℚ
  items : List String
  customer : String
  status : String
  address : String
  notes : String
  priority : Int
deriving DecidableEq, Repr

/-- `models.ProcessedOrder` (model.go).  `ProcessedAt` elided (wall clock);
`ProcessingTime` is the measured duration in milliseconds. -/
structure ProcessedOrder where
  order : Order
  processingTime : Int
  workerID : Nat
  success : Bool
  error : String
  result : String
deriving DecidableEq, Repr

/-- `models.ProcessingStats` (model.go).  `AverageProcessTime` is a Go
`float64`, modelled as `ℚ`. -/
structure ProcessingStats where
  totalProcessed : Int
  successCount : Int
  errorCount : Int
  averageProcessTime : ℚ
  activeWorkers : Nat
  queueLength : Nat
  uptime : Int
deriving DecidableEq, Repr

/-- `models.ValidationError` (model.go). -/
structure ValidationError where
  message : String
deriving DecidableEq, Repr

/-- `(*Pool).validateOrderForProcessing` (pool.go): amount ceiling checked
first, then the item-count ceiling. -/
def validateOrderForProcessing (order : Order) : Option ValidationError :=
  if 10000 < order.amount then some ⟨"order amount exceeds limit"⟩
  else if 50 < order.items.length then some ⟨"too many items in order"⟩
  else none

/-- `(*Pool).applyBusinessRules` (pool.go): the `switch` that classifies a
successfully validated order, first matching branch wins. -/
def applyBusinessRules (processedOrder : ProcessedOrder) : ProcessedOrder :=
  if 1000 < processedOrder.order.amount then
    { processedOrder with
      order := { processedOrder.order with status := "priority_processing" },
      result := "Order marked for priority processing" }
  else if processedOrder.order.priority = 1 then
    { processedOrder with
      order := { processedOrder.order with status := "expedited" },
      result := "Order expedited due to high priority" }
  else
    { processedOrder with
      order := { processedOrder.order with status := "processing" },
      result := "Order processing completed" }

/-- `(*Pool).processOrder` (pool.go).  The priority-proportional
`time.Sleep` only consumes time; `elapsedMs` is the value of
`time.Since(startTime).Milliseconds()` measured at the end. -/
def processOrder (order : Order) (workerID : Nat) (elapsedMs : Int) : ProcessedOrder :=
  let base : ProcessedOrder :=
    { order := order, processingTime := 0, workerID := workerID,
      success := true, error := "", result := "Order processed successfully" }
  let afterValidation : ProcessedOrder :=
    match validateOrderForProcessing order with
    | some e => { base with success := false, error := e.message,
                            result := "Order processing failed" }
    | none => base
  let afterRules : ProcessedOrder :=
    if afterValidation.success then applyBusinessRules afterValidation
    else afterValidation
  { afterRules with processingTime := elapsedMs }

/-- `needle` occurs as a contiguous substring of `hay` — used to make
"the error string mentions the … limit" precise. -/
def Mentions (needle hay : String) : Prop :=
  needle.toList <:+: hay.toList

instance (needle hay : String) : Decidable (Mentions needle hay) :=
  inferInstanceAs (Decidable (needle.toList <:+: hay.toList))

/-- Control state of one worker goroutine (`(*Pool).worker`, pool.go):
`idle` — blocked in the outer `select` waiting for a task or cancellation;
`pushing r` — has computed `r` and is in the inner `select` trying to send
it on `Results`; `counting r` — has sent `r` and still has to perform the
four atomic counter additions; `stopped` — returned. -/
inductive WorkerState where
  | idle : WorkerState
  | pushing (r : ProcessedOrder) : WorkerState
  | counting (r : ProcessedOrder) : WorkerState
  | stopped : WorkerState
deriving DecidableEq, Repr

/-- Program counter of the (single) `Close` caller (pool.go):
`Cancel(); Wg.Wait(); close(Orders); close(Results)`. -/
inductive ClosePhase where
  | running : ClosePhase
  | cancelSent : ClosePhase
  | waited : ClosePhase
  | ordersDone : ClosePhase
  | done : ClosePhase
deriving DecidableEq, Repr

/-- Global state of a `processor.Pool` together with its workers and the
`Close` caller.  `orders` / `results` hold the buffered-channel contents in
FIFO order, `buf` the shared capacity, `cancelled` whether `Ctx` is done
(the parent context is `context.Background()`, so only `Close` cancels).
`admitted` and `dropped` are ghost counters: tasks ever admitted, and
results dropped by the shutdown race. -/
structure PoolState where
  buf : Nat
  workers : Nat
  orders : List Order
  results : List ProcessedOrder
  cancelled : Bool
  ordersClosed : Bool
  resultsClosed : Bool
  processed : Int
  successCount : Int
  errorCount : Int
  totalTime : Int
  ws : List WorkerState
  phase : ClosePhase
  admitted : Nat
  dropped : Nat
deriving DecidableEq, Repr

/-- `processor.Start(ctx, workers, buf)` (pool.go): fresh queues, zero
counters, `workers` workers launched into their loops. -/
def initState (workers buf : Nat) : PoolState :=
  { buf := buf, workers := workers, orders := [], results := [],
    cancelled := false, ordersClosed := false, resultsClosed := false,
    processed := 0, successCount := 0, errorCount := 0, totalTime := 0,
    ws := List.replicate workers WorkerState.idle,
    phase := ClosePhase.running, admitted := 0, dropped := 0 }

/-- The four atomic counter additions a worker performs after a successful
push (pool.go, end of the `worker` loop body). -/
def applyStats (s : PoolState) (r : ProcessedOrder) : PoolState :=
  { s with
    processed := s.processed + 1,
    successCount := if r.success then s.successCount + 1 else s.successCount,
    errorCount := if r.success then s.errorCount else s.errorCount + 1,
    totalTime := s.totalTime + r.processingTime }

/-- The non-blocking admission attempt of `CreateOrderHandler`
(handler.go): `select { case pool.Orders <- o: ... default: ... }` on an
open channel.  Returns the new state and whether the task was enqueued;
on a full queue the state is returned unchanged.  (`admitted` is ghost.) -/
def admitOrder (s : PoolState) (o : Order) : PoolState × Bool :=
  if s.orders.length < s.buf then
    ({ s with orders := s.orders ++ [o], admitted := s.admitted + 1 }, true)
  else (s, false)

/-- Repeated admission attempts, keeping only the states. -/
def admitAll (s : PoolState) (os : List Order) : PoolState :=
  os.foldl (fun t o => (admitOrder t o).fst) s

/-- `(*Pool).Stats` (pool.go).  `uptimeSeconds` is the measured value of
`int64(time.Since(p.StartTime).Seconds())`. -/
def Stats (s : PoolState) (uptimeSeconds : Int) : ProcessingStats :=
  { totalProcessed := s.processed,
    successCount := s.successCount,
    errorCount := s.errorCount,
    averageProcessTime :=
      if 0 < s.processed then (s.totalTime : ℚ) / (s.processed : ℚ) else 0,
    activeWorkers := s.workers,
    queueLength := s.orders.length,
    uptime := uptimeSeconds }

/-- `(*Pool).GetQueueLength` (pool.go). -/
def GetQueueLength (s : PoolState) : Nat :=
  s.orders.length

/-- `(*Pool).IsHealthy` (pool.go):
`p.Ctx.Err() == nil && len(p.Orders) < cap(p.Orders)`. -/
def IsHealthy (s : PoolState) : Bool :=
  !s.cancelled && decide (s.orders.length < s.buf)

/-- A worker currently holds a dequeued task whose accounting is not yet
finished. -/
def isBusy : WorkerState → Bool
  | WorkerState.pushing _ => true
  | WorkerState.counting _ => true
  | _ => false

/-- Number of busy workers. -/
def busyCount : List WorkerState → Nat
  | [] => 0
  | w :: rest => (if isBusy w then 1 else 0) + busyCount rest

/-- Any result held inside a worker has a nonnegative measured duration. -/
def wsTimeOK : WorkerState → Prop
  | WorkerState.pushing r => 0 ≤ r.processingTime
  | WorkerState.counting r => 0 ≤ r.processingTime
  | _ => True

/-- One atomic action of the system: an admission by the HTTP handler, one
worker `select` arm or counter-update block, one consumption by the result
reader, or one statement of `Close`.  Each constructor is a direct
transcription of the corresponding line(s) of pool.go / handler.go. -/
inductive Step : PoolState → PoolState → Prop where
  /-- `CreateOrderHandler`: `case pool.Orders <- o:` succeeds (queue open,
  spare capacity).  A full queue takes the `default` branch and changes no
  state, so it is not a transition. -/
  | admitOk (s : PoolState) (o : Order)
      (hopen : s.ordersClosed = false)
      (hroom : s.orders.length < s.buf) :
      Step s { s with orders := s.orders ++ [o], admitted := s.admitted + 1 }
  /-- Worker `i`, outer `select`: `case order, ok := <-p.Orders` with
  `ok = true`; it immediately computes `processOrder` (sleep elided, the
  measured duration is `t ≥ 0`). -/
  | dequeue (s : PoolState) (i : Nat) (o : Order) (rest : List Order) (t : Int)
      (ht : 0 ≤ t)
      (hq : s.orders = o :: rest)
      (hw : s.ws[i]? = some WorkerState.idle) :
      Step s { s with orders := rest,
                      ws := s.ws.set i (WorkerState.pushing (processOrder o i t)) }
  /-- Worker `i`, outer `select`: `case <-p.Ctx.Done(): return`. -/
  | stopCancelled (s : PoolState) (i : Nat)
      (hw : s.ws[i]? = some WorkerState.idle)
      (hc : s.cancelled = true) :
      Step s { s with ws := s.ws.set i WorkerState.stopped }
  /-- Worker `i`, outer `select`: `case order, ok := <-p.Orders` with
  `ok = false` (channel closed and drained): `return`. -/
  | stopClosed (s : PoolState) (i : Nat)
      (hw : s.ws[i]? = some WorkerState.idle)
      (hcl : s.ordersClosed = true)
      (hq : s.orders = []) :
      Step s { s with ws := s.ws.set i WorkerState.stopped }
  /-- Worker `i`, inner `select`: `case p.Results <- processedOrder:`
  succeeds (spare capacity on `Results`). -/
  | pushResult (s : PoolState) (i : Nat) (r : ProcessedOrder)
      (hw : s.ws[i]? = some (WorkerState.pushing r))
      (hroom : s.results.length < s.buf) :
      Step s { s with results := s.results ++ [r],
                      ws := s.ws.set i (WorkerState.counting r) }
  /-- Worker `i`, inner `select`: `case <-p.Ctx.Done(): return` — the
  computed result is dropped. -/
  | dropResult (s : PoolState) (i : Nat) (r : ProcessedOrder)
      (hw : s.ws[i]? = some (WorkerState.pushing r))
      (hc : s.cancelled = true) :
      Step s { s with ws := s.ws.set i WorkerState.stopped,
                      dropped := s.dropped + 1 }
  /-- Worker `i`: the four `atomic.AddInt64` updates after a push, then back
  to the top of the loop. -/
  | countResult (s : PoolState) (i : Nat) (r : ProcessedOrder)
      (hw : s.ws[i]? = some (WorkerState.counting r)) :
      Step s { applyStats s r with ws := s.ws.set i WorkerState.idle }
  /-- The external result reader takes one result off `Results`
  (cmd/main.go: `for result := range pool.Results`). -/
  | consume (s : PoolState) (r : ProcessedOrder) (rest : List ProcessedOrder)
      (hq : s.results = r :: rest) :
      Step s { s with results := rest }
  /-- `Close`, statement 1: `pool.Cancel()`. -/
  | closeCancel (s : PoolState)
      (hp : s.phase = ClosePhase.running) :
      Step s { s with cancelled := true, phase := ClosePhase.cancelSent }
  /-- `Close`, statement 2: `pool.Wg.Wait()` returns — enabled only once
  every worker has called `Wg.Done()`, i.e. exited its loop. -/
  | closeWait (s : PoolState)
      (hp : s.phase = ClosePhase.cancelSent)
      (hall : ∀ st ∈ s.ws, st = WorkerState.stopped) :
      Step s { s with phase := ClosePhase.waited }
  /-- `Close`, statement 3: `close(pool.Orders)`. -/
  | closeOrders (s : PoolState)
      (hp : s.phase = ClosePhase.waited) :
      Step s { s with ordersClosed := true, phase := ClosePhase.ordersDone }
  /-- `Close`, statement 4: `close(pool.Results)`. -/
  | closeResults (s : PoolState)
      (hp : s.phase = ClosePhase.ordersDone) :
      Step s { s with resultsClosed := true, phase := ClosePhase.done }

/-- Zero or more atomic actions. -/
def Reaches : PoolState → PoolState → Prop :=
  Relation.ReflTransGen Step

/-- States reachable from a pool freshly created by
`Start(ctx, workers, buf)`. -/
def Reachable (workers buf : Nat) (s : PoolState) : Prop :=
  Reaches (initState workers buf) s

/-- A step that completes no task: any transition other than a worker's
counter-update block.  (Characterised by the `processed` counter being
unchanged, since only the counter-update transition changes it.) -/
def NoCompletion (s t : PoolState) : Prop :=
  Step s t ∧ t.processed = s.processed

/-- The state after worker `i` loses the inner-`select` race to
cancellation: the worker is stopped and the computed result vanishes
(`dropped` is ghost). -/
def dropState (s : PoolState) (i : Nat) : PoolState :=
  { s with ws := s.ws.set i WorkerState.stopped, dropped := s.dropped + 1 }

/-! ## Concrete data and executions used to witness the theorems -/

/-- A valid high-priority order: amount 500, one item, priority 1. -/
def oA : Order :=
  { id := "order-a", amount := 500, items := ["widget"], customer := "alice",
    status := "pending", address := "1 Main St", notes := "", priority := 1 }

/-- An order violating both ceilings at once: amount 20000 and 51 items. -/
def oOverBoth : Order :=
  { id := "order-big", amount := 20000, items := List.replicate 51 "x",
    customer := "bob", status := "pending", address := "2 Main St",
    notes := "", priority := 2 }

/-- The result of processing `oA` on worker 0 in 5 ms. -/
def rA : ProcessedOrder := processOrder oA 0 5

/-- An execution of a pool with 1 worker and buffer capacity 1:
admit `oA`, process it to completion, read the result, then `Close`. -/
def t0 : PoolState := initState 1 1

def t1 : PoolState := { t0 with orders := t0.orders ++ [oA], admitted := t0.admitted + 1 }

def t2 : PoolState :=
  { t1 with orders := [], ws := t1.ws.set 0 (WorkerState.pushing rA) }

def t3 : PoolState :=
  { t2 with results := t2.results ++ [rA], ws := t2.ws.set 0 (WorkerState.counting rA) }

def t4 : PoolState := { applyStats t3 rA with ws := t3.ws.set 0 WorkerState.idle }

def t5 : PoolState := { t4 with results := [] }

def t6 : PoolState := { t5 with cancelled := true, phase := ClosePhase.cancelSent }

def t7 : PoolState := { t6 with ws := t6.ws.set 0 WorkerState.stopped }

def t8 : PoolState := { t7 with phase := ClosePhase.waited }

def t9 : PoolState := { t8 with ordersClosed := true, phase := ClosePhase.ordersDone }

def t10 : PoolState := { t9 with resultsClosed := true, phase := ClosePhase.done }

/-- A variant: cancellation fires while the worker still holds `rA`
(between computing it and pushing it). -/
def u3 : PoolState := { t2 with cancelled := true, phase := ClosePhase.cancelSent }

/-- A fresh pool with 1 worker and buffer capacity 2, and the same pool
after one admission — used for the `Stats` idempotence counterexample. -/
def cSt0 : PoolState := initState 1 2

def cSt1 : PoolState :=
  { cSt0 with orders := cSt0.orders ++ [oA], admitted := cSt0.admitted + 1 }

/-! ## The inductive invariant of the pool -/

/-- Inductive invariant of every pool started as `Start(ctx, w, b)`:
configuration fields are constant, the queue-closure flags track the
progress of `Close`, every worker is stopped once `Wg.Wait()` has
returned, the ghost accounting balances, success and error counts sum to
the processed count, and in-flight results carry nonnegative durations. -/
structure Inv (w b : Nat) (s : PoolState) : Prop where
  buf_eq : s.buf = b
  workers_eq : s.workers = w
  ws_len : s.ws.length = w
  cancel_phase : s.phase ≠ ClosePhase.running → s.cancelled = true
  ordersClosed_phase : s.ordersClosed = true ↔
    (s.phase = ClosePhase.ordersDone ∨ s.phase = ClosePhase.done)
  resultsClosed_phase : s.resultsClosed = true ↔ s.phase = ClosePhase.done
  stopped_after_wait :
    (s.phase = ClosePhase.waited ∨ s.phase = ClosePhase.ordersDone ∨
      s.phase = ClosePhase.done) → ∀ st ∈ s.ws, st = WorkerState.stopped
  count_eq : s.processed + (s.orders.length : Int) + (busyCount s.ws : Int)
      + (s.dropped : Int) = (s.admitted : Int)
  se_eq : s.successCount + s.errorCount = s.processed
  time_ok : ∀ st ∈ s.ws, wsTimeOK st

/-! ## Helper lemmas -/

theorem mem_of_get_eq_some {α : Type} {l : List α} {i : Nat} {v : α}
    (h : l[i]? = some v) : v ∈ l := by
  obtain ⟨hi, he⟩ := List.getElem?_eq_some.mp h
  exact he ▸ List.getElem_mem hi

theorem processOrder_processingTime (o : Order) (wid : Nat) (t : Int) :
    (processOrder o wid t).processingTime = t := rfl

theorem busyCount_set {l : List WorkerState} {i : Nat} {old : WorkerState}
    (v : WorkerState) (h : l[i]? = some old) :
    busyCount (l.set i v) + (if isBusy old then 1 else 0)
      = busyCount l + (if isBusy v then 1 else 0) := by
  induction l generalizing i with
  | nil => simp at h
  | cons hd tl ih =>
    cases i with
    | zero =>
      simp only [List.getElem?_cons_zero, Option.some.injEq] at h
      subst h
      simp [busyCount]
      omega
    | succ n =>
      simp only [List.getElem?_cons_succ] at h
      have := ih h
      simp [busyCount]
      omega

theorem busyCount_eq_zero {l : List WorkerState}
    (h : ∀ st ∈ l, isBusy st = false) : busyCount l = 0 := by
  induction l with
  | nil => rfl
  | cons hd tl ih =>
    have hhd := h hd (by simp)
    have := ih (fun st hst => h st (by simp [hst]))
    simp [busyCount, hhd, this]

theorem inv_init (w b : Nat) : Inv w b (initState w b) := by
  constructor
  · rfl
  · rfl
  · simp [initState]
  · intro h; exact absurd rfl h
  · simp [initState]
  · simp [initState]
  · intro h; simp [initState] at h
  · have hz : busyCount (List.replicate w WorkerState.idle) = 0 :=
      busyCount_eq_zero (fun st hst => by rw [List.eq_of_mem_replicate hst]; rfl)
    simp [initState, hz]
  · simp [initState]
  · intro st hst
    have h := List.eq_of_mem_replicate (show st ∈ List.replicate w WorkerState.idle from hst)
    rw [h]; trivial

theorem inv_step {w b : Nat} {s s' : PoolState} (hstep : Step s s')
    (hInv : Inv w b s) : Inv w b s' := by
  obtain ⟨hbuf, hwork, hlen, hcp, hocp, hrcp, hsw, hcount, hse, htime⟩ := hInv
  cases hstep with
  | admitOk o hopen hroom =>
    refine ⟨hbuf, hwork, hlen, hcp, hocp, hrcp, hsw, ?_, hse, htime⟩
    simp only [List.length_append, List.length_cons, List.length_nil]
    push_cast
    omega
  | dequeue i o rest t ht hq hw =>
    have hmem : WorkerState.idle ∈ s.ws := mem_of_get_eq_some hw
    have hbc := busyCount_set (WorkerState.pushing (processOrder o i t)) hw
    refine ⟨hbuf, hwork, ?_, hcp, hocp, hrcp, ?_, ?_, hse, ?_⟩
    · simpa [List.length_set] using hlen
    · intro hph st hst
      exact absurd (hsw hph WorkerState.idle hmem) (by simp)
    · simp [isBusy] at hbc
      rw [hq] at hcount
      simp only [List.length_cons] at hcount
      push_cast at hcount ⊢
      omega
    · intro st hst
      rcases List.mem_or_eq_of_mem_set hst with h | h
      · exact htime st h
      · subst h
        simpa [wsTimeOK, processOrder_processingTime] using ht
  | stopCancelled i hw hc =>
    have hmem : WorkerState.idle ∈ s.ws := mem_of_get_eq_some hw
    have hbc := busyCount_set WorkerState.stopped hw
    refine ⟨hbuf, hwork, ?_, hcp, hocp, hrcp, ?_, ?_, hse, ?_⟩
    · simpa [List.length_set] using hlen
    · intro hph st hst
      exact absurd (hsw hph WorkerState.idle hmem) (by simp)
    · simp [isBusy] at hbc
      push_cast at hcount ⊢
      omega
    · intro st hst
      rcases List.mem_or_eq_of_mem_set hst with h | h
      · exact htime st h
      · subst h; trivial
  | stopClosed i hw hcl hq =>
    have hbc := busyCount_set WorkerState.stopped hw
    refine ⟨hbuf, hwork, ?_, hcp, hocp, hrcp, ?_, ?_, hse, ?_⟩
    · simpa [List.length_set] using hlen
    · intro hph st hst
      rcases List.mem_or_eq_of_mem_set hst with h | h
      · exact hsw hph st h
      · exact h
    · simp [isBusy] at hbc
      push_cast at hcount ⊢
      omega
    · intro st hst
      rcases List.mem_or_eq_of_mem_set hst with h | h
      · exact htime st h
      · subst h; trivial
  | pushResult i r hw hroom =>
    have hmem : WorkerState.pushing r ∈ s.ws := mem_of_get_eq_some hw
    have hbc := busyCount_set (WorkerState.counting r) hw
    refine ⟨hbuf, hwork, ?_, hcp, hocp, hrcp, ?_, ?_, hse, ?_⟩
    · simpa [List.length_set] using hlen
    · intro hph st hst
      exact absurd (hsw hph _ hmem) (by simp)
    · simp [isBusy] at hbc
      push_cast at hcount ⊢
      omega
    · intro st hst
      rcases List.mem_or_eq_of_mem_set hst with h | h
      · exact htime st h
      · subst h
        show 0 ≤ r.processingTime
        exact htime (WorkerState.pushing r) hmem
  | dropResult i r hw hc =>
    have hmem : WorkerState.pushing r ∈ s.ws := mem_of_get_eq_some hw
    have hbc := busyCount_set WorkerState.stopped hw
    refine ⟨hbuf, hwork, ?_, hcp, hocp, hrcp, ?_, ?_, hse, ?_⟩
    · simpa [List.length_set] using hlen
    · intro hph st hst
      exact absurd (hsw hph _ hmem) (by simp)
    · simp [isBusy] at hbc
      push_cast at hcount ⊢
      omega
    · intro st hst
      rcases List.mem_or_eq_of_mem_set hst with h | h
      · exact htime st h
      · subst h; trivial
  | countResult i r hw =>
    have hmem : WorkerState.counting r ∈ s.ws := mem_of_get_eq_some hw
    have hbc := busyCount_set WorkerState.idle hw
    refine ⟨hbuf, hwork, ?_, hcp, hocp, hrcp, ?_, ?_, ?_, ?_⟩
    · simpa [List.length_set] using hlen
    · intro hph st hst
      exact absurd (hsw hph _ hmem) (by simp)
    · simp [isBusy] at hbc
      simp only [applyStats]
      omega
    · cases hr : r.success <;> simp [applyStats, hr] <;> omega
    · intro st hst
      rcases List.mem_or_eq_of_mem_set hst with h | h
      · exact htime st h
      · subst h; trivial
  | consume r rest hq =>
    exact ⟨hbuf, hwork, hlen, hcp, hocp, hrcp, hsw, hcount, hse, htime⟩
  | closeCancel hp =>
    have hoc : s.ordersClosed = false := by
      cases h : s.ordersClosed with
      | false => rfl
      | true =>
        rcases hocp.mp h with h2 | h2 <;> rw [hp] at h2 <;> exact absurd h2 (by simp)
    have hrc : s.resultsClosed = false := by
      cases h : s.resultsClosed with
      | false => rfl
      | true =>
        have h2 := hrcp.mp h; rw [hp] at h2; exact absurd h2 (by simp)
    refine ⟨hbuf, hwork, hlen, fun _ => rfl, ?_, ?_, ?_, hcount, hse, htime⟩
    · show s.ordersClosed = true ↔ _
      simp [hoc]
    · show s.resultsClosed = true ↔ _
      simp [hrc]
    · intro hph
      exact absurd hph (by simp)
  | closeWait hp hall =>
    have hoc : s.ordersClosed = false := by
      cases h : s.ordersClosed with
      | false => rfl
      | true =>
        rcases hocp.mp h with h2 | h2 <;> rw [hp] at h2 <;> exact absurd h2 (by simp)
    have hrc : s.resultsClosed = false := by
      cases h : s.resultsClosed with
      | false => rfl
      | true =>
        have h2 := hrcp.mp h; rw [hp] at h2; exact absurd h2 (by simp)
    refine ⟨hbuf, hwork, hlen, fun _ => hcp (by rw [hp]; simp), ?_, ?_, ?_,
      hcount, hse, htime⟩
    · show s.ordersClosed = true ↔ _
      simp [hoc]
    · show s.resultsClosed = true ↔ _
      simp [hrc]
    · intro _ st hst
      exact hall st hst
  | closeOrders hp =>
    have hrc : s.resultsClosed = false := by
      cases h : s.resultsClosed with
      | false => rfl
      | true =>
        have h2 := hrcp.mp h; rw [hp] at h2; exact absurd h2 (by simp)
    refine ⟨hbuf, hwork, hlen, fun _ => hcp (by rw [hp]; simp), by simp, ?_, ?_,
      hcount, hse, htime⟩
    · show s.resultsClosed = true ↔ _
      simp [hrc]
    · intro _ st hst
      exact hsw (by rw [hp]; simp) st hst
  | closeResults hp =>
    refine ⟨hbuf, hwork, hlen, fun _ => hcp (by rw [hp]; simp), ?_, by simp, ?_,
      hcount, hse, htime⟩
    · show s.ordersClosed = true ↔ _
      simp [hocp, hp]
    · intro _ st hst
      exact hsw (by rw [hp]; simp) st hst

theorem inv_reachable {w b : Nat} {s : PoolState} (h : Reachable w b s) :
    Inv w b s := by
  induction h with
  | refl => exact inv_init w b
  | tail _ hstep ih => exact inv_step hstep ih

/-- Once a worker has returned, no transition restarts it. -/
theorem stopped_persists_step {s t : PoolState} {i : Nat} (hstep : Step s t)
    (hs : s.ws[i]? = some WorkerState.stopped) :
    t.ws[i]? = some WorkerState.stopped := by
  cases hstep with
  | admitOk o hopen hroom => exact hs
  | dequeue j o rest tm ht hq hw =>
    by_cases hij : j = i
    · subst hij; rw [hw] at hs; simp at hs
    · show (s.ws.set j _)[i]? = _
      rw [List.getElem?_set_ne hij]; exact hs
  | stopCancelled j hw hc =>
    by_cases hij : j = i
    · subst hij; rw [hw] at hs; simp at hs
    · show (s.ws.set j _)[i]? = _
      rw [List.getElem?_set_ne hij]; exact hs
  | stopClosed j hw hcl hq =>
    by_cases hij : j = i
    · subst hij
      show (s.ws.set j _)[j]? = _
      have hlt := (List.getElem?_eq_some.mp hs).1
      exact List.getElem?_set_eq_of_lt _ hlt
    · show (s.ws.set j _)[i]? = _
      rw [List.getElem?_set_ne hij]; exact hs
  | pushResult j r hw hroom =>
    by_cases hij : j = i
    · subst hij; rw [hw] at hs; simp at hs
    · show (s.ws.set j _)[i]? = _
      rw [List.getElem?_set_ne hij]; exact hs
  | dropResult j r hw hc =>
    by_cases hij : j = i
    · subst hij; rw [hw] at hs; simp at hs
    · show (s.ws.set j _)[i]? = _
      rw [List.getElem?_set_ne hij]; exact hs
  | countResult j r hw =>
    by_cases hij : j = i
    · subst hij; rw [hw] at hs; simp at hs
    · show (s.ws.set j _)[i]? = _
      rw [List.getElem?_set_ne hij]; exact hs
  | consume r rest hq => exact hs
  | closeCancel hp => exact hs
  | closeWait hp hall => exact hs
  | closeOrders hp => exact hs
  | closeResults hp => exact hs

theorem stopped_persists {s t : PoolState} {i : Nat} (h : Reaches s t)
    (hs : s.ws[i]? = some WorkerState.stopped) :
    t.ws[i]? = some WorkerState.stopped := by
  induction h with
  | refl => exact hs
  | tail _ hstep ih => exact stopped_persists_step hstep ih

/-- A transition that completes no task leaves all four shared counters and
the configured worker count untouched. -/
theorem noCompletion_counters {s t : PoolState} (h : NoCompletion s t) :
    t.processed = s.processed ∧ t.successCount = s.successCount ∧
    t.errorCount = s.errorCount ∧ t.totalTime = s.totalTime ∧
    t.workers = s.workers := by
  obtain ⟨hstep, hp⟩ := h
  cases hstep with
  | countResult i r hw =>
    exfalso
    simp only [applyStats] at hp
    omega
  | admitOk o hopen hroom => exact ⟨rfl, rfl, rfl, rfl, rfl⟩
  | dequeue j o rest tm ht hq hw => exact ⟨rfl, rfl, rfl, rfl, rfl⟩
  | stopCancelled j hw hc => exact ⟨rfl, rfl, rfl, rfl, rfl⟩
  | stopClosed j hw hcl hq => exact ⟨rfl, rfl, rfl, rfl, rfl⟩
  | pushResult j r hw hroom => exact ⟨rfl, rfl, rfl, rfl, rfl⟩
  | dropResult j r hw hc => exact ⟨rfl, rfl, rfl, rfl, rfl⟩
  | consume r rest hq => exact ⟨rfl, rfl, rfl, rfl, rfl⟩
  | closeCancel hp2 => exact ⟨rfl, rfl, rfl, rfl, rfl⟩
  | closeWait hp2 hall => exact ⟨rfl, rfl, rfl, rfl, rfl⟩
  | closeOrders hp2 => exact ⟨rfl, rfl, rfl, rfl, rfl⟩
  | closeResults hp2 => exact ⟨rfl, rfl, rfl, rfl, rfl⟩

theorem noCompletion_chain {s t : PoolState}
    (h : Relation.ReflTransGen NoCompletion s t) :
    t.processed = s.processed ∧ t.successCount = s.successCount ∧
    t.errorCount = s.errorCount ∧ t.totalTime = s.totalTime ∧
    t.workers = s.workers := by
  induction h with
  | refl => exact ⟨rfl, rfl, rfl, rfl, rfl⟩
  | tail _ hstep ih =>
    obtain ⟨h1, h2, h3, h4, h5⟩ := ih
    obtain ⟨g1, g2, g3, g4, g5⟩ := noCompletion_counters hstep
    exact ⟨g1.trans h1, g2.trans h2, g3.trans h3, g4.trans h4, g5.trans h5⟩

/-- Admission, whether it succeeds or is refused, never touches the four
shared counters, the capacity, or the queue-closure flags. -/
theorem admitOrder_preserves (s : PoolState) (o : Order) :
    (admitOrder s o).fst.processed = s.processed ∧
    (admitOrder s o).fst.successCount = s.successCount ∧
    (admitOrder s o).fst.errorCount = s.errorCount ∧
    (admitOrder s o).fst.totalTime = s.totalTime ∧
    (admitOrder s o).fst.buf = s.buf := by
  unfold admitOrder
  split <;> exact ⟨rfl, rfl, rfl, rfl, rfl⟩

/-- Admitting a batch that fits entirely within the spare capacity enqueues
every task, and never touches the counters or the capacity. -/
theorem admitAll_fills (os : List Order) (s : PoolState)
    (h : s.orders.length + os.length ≤ s.buf) :
    (admitAll s os).orders.length = s.orders.length + os.length ∧
    (admitAll s os).buf = s.buf ∧
    (admitAll s os).processed = s.processed ∧
    (admitAll s os).successCount = s.successCount ∧
    (admitAll s os).errorCount = s.errorCount ∧
    (admitAll s os).totalTime = s.totalTime := by
  induction os generalizing s with
  | nil => exact ⟨by simp [admitAll], rfl, rfl, rfl, rfl, rfl⟩
  | cons o rest ih =>
    have hroom : s.orders.length < s.buf := by
      simp only [List.length_cons] at h; omega
    have hstep : admitOrder s o =
        ({ s with orders := s.orders ++ [o], admitted := s.admitted + 1 }, true) := by
      simp [admitOrder, hroom]
    have hchain : admitAll s (o :: rest) =
        admitAll { s with orders := s.orders ++ [o], admitted := s.admitted + 1 } rest := by
      simp [admitAll, hstep]
    rw [hchain]
    have hlen : (s.orders ++ [o]).length + rest.length ≤ s.buf := by
      simp only [List.length_append, List.length_cons, List.length_nil] at h ⊢
      omega
    obtain ⟨h1, h2, h3, h4, h5, h6⟩ :=
      ih { s with orders := s.orders ++ [o], admitted := s.admitted + 1 } hlen
    refine ⟨?_, h2, h3, h4, h5, h6⟩
    rw [h1]
    simp only [List.length_append, List.length_cons, List.length_nil]
    omega

/-! ## Reachability of the concrete executions -/

theorem reach_t1 : Reachable 1 1 t1 :=
  Relation.ReflTransGen.single (Step.admitOk t0 oA rfl (by decide))

theorem reach_t2 : Reachable 1 1 t2 :=
  Relation.ReflTransGen.tail reach_t1 (Step.dequeue t1 0 oA [] 5 (by decide) rfl rfl)

theorem reach_t3 : Reachable 1 1 t3 :=
  Relation.ReflTransGen.tail reach_t2 (Step.pushResult t2 0 rA rfl (by decide))

theorem reach_t4 : Reachable 1 1 t4 :=
  Relation.ReflTransGen.tail reach_t3 (Step.countResult t3 0 rA rfl)

theorem reach_t5 : Reachable 1 1 t5 :=
  Relation.ReflTransGen.tail reach_t4 (Step.consume t4 rA [] rfl)

theorem reach_t6 : Reachable 1 1 t6 :=
  Relation.ReflTransGen.tail reach_t5 (Step.closeCancel t5 rfl)

theorem reach_t7 : Reachable 1 1 t7 :=
  Relation.ReflTransGen.tail reach_t6 (Step.stopCancelled t6 0 rfl rfl)

theorem reach_t8 : Reachable 1 1 t8 :=
  Relation.ReflTransGen.tail reach_t7 (Step.closeWait t7 rfl (by decide))

theorem reach_t9 : Reachable 1 1 t9 :=
  Relation.ReflTransGen.tail reach_t8 (Step.closeOrders t8 rfl)

theorem reach_t10 : Reachable 1 1 t10 :=
  Relation.ReflTransGen.tail reach_t9 (Step.closeResults t9 rfl)

theorem reach_u3 : Reachable 1 1 u3 :=
  Relation.ReflTransGen.tail reach_t2 (Step.closeCancel t2 rfl)

/-! ## Claims -/

/-- C1: every task with amount at most 10000 and item count at most 50 is
processed to a Result with success = true, whose status is chosen by the
first matching branch: amount > 1000 gives "priority_processing",
otherwise priority = 1 gives "expedited", otherwise "processing". -/
theorem processOrder_success_and_status (o : Order) (wid : Nat) (t : Int)
    (hAmt : o.amount ≤ 10000) (hItems : o.items.length ≤ 50) :
    (processOrder o wid t).success = true ∧
    (processOrder o wid t).order.status =
      (if 1000 < o.amount then "priority_processing"
       else if o.priority = 1 then "expedited"
       else "processing") := by
  have hv : validateOrderForProcessing o = none := by
    unfold validateOrderForProcessing
    rw [if_neg (not_lt.mpr hAmt), if_neg (not_lt.mpr hItems)]
  simp only [processOrder, hv]
  unfold applyBusinessRules
  split_ifs with h1 h2 <;> simp_all

/-- C1 witness: the three example classifications from the spec, plus the
success flag, at amount 1500 / priority 2, amount 500 / priority 1, and
amount 500 / priority 3. -/
theorem processOrder_success_and_status_witness :
    ((processOrder { oA with amount := 1500, priority := 2 } 0 5).success = true ∧
      (processOrder { oA with amount := 1500, priority := 2 } 0 5).order.status =
        (if 1000 < ({ oA with amount := 1500, priority := 2 } : Order).amount
         then "priority_processing"
         else if ({ oA with amount := 1500, priority := 2 } : Order).priority = 1
         then "expedited" else "processing")) ∧
    ((processOrder oA 0 5).success = true ∧
      (processOrder oA 0 5).order.status =
        (if 1000 < oA.amount then "priority_processing"
         else if oA.priority = 1 then "expedited" else "processing")) ∧
    ((processOrder { oA with priority := 3 } 0 5).success = true ∧
      (processOrder { oA with priority := 3 } 0 5).order.status =
        (if 1000 < ({ oA with priority := 3 } : Order).amount
         then "priority_processing"
         else if ({ oA with priority := 3 } : Order).priority = 1
         then "expedited" else "processing")) :=
  ⟨processOrder_success_and_status { oA with amount := 1500, priority := 2 } 0 5
      (by decide) (by decide),
   processOrder_success_and_status oA 0 5 (by decide) (by decide),
   processOrder_success_and_status { oA with priority := 3 } 0 5
      (by decide) (by decide)⟩

/-- C2 counterexample: a task with 51 items whose amount also exceeds the
amount ceiling (amount 20000) fails with the amount-limit message — the
error string does not mention items at all, refuting the claim that every
task with item count above 50 yields an error mentioning the item-count
limit. -/
theorem item_error_claim_counterexample :
    50 < oOverBoth.items.length ∧
    (processOrder oOverBoth 0 3).success = false ∧
    (processOrder oOverBoth 0 3).error = "order amount exceeds limit" ∧
    ¬ Mentions "item" (processOrder oOverBoth 0 3).error := by
  decide

/-- C2 (amended): a task with amount over 10000 fails with the amount-limit
message; a task with amount within the ceiling but more than 50 items fails
with the item-count message; in both cases the worker counter update for
the Result adds exactly one to the error count and leaves the success
count unchanged. -/
theorem validation_failure_accounting (o : Order) (wid : Nat) (t : Int)
    (s : PoolState) :
    (10000 < o.amount →
      (processOrder o wid t).success = false ∧
      (processOrder o wid t).error = "order amount exceeds limit" ∧
      Mentions "amount" (processOrder o wid t).error ∧
      Mentions "limit" (processOrder o wid t).error ∧
      (applyStats s (processOrder o wid t)).errorCount = s.errorCount + 1 ∧
      (applyStats s (processOrder o wid t)).successCount = s.successCount) ∧
    (o.amount ≤ 10000 → 50 < o.items.length →
      (processOrder o wid t).success = false ∧
      (processOrder o wid t).error = "too many items in order" ∧
      Mentions "item" (processOrder o wid t).error ∧
      (applyStats s (processOrder o wid t)).errorCount = s.errorCount + 1 ∧
      (applyStats s (processOrder o wid t)).successCount = s.successCount) := by
  constructor
  · intro hAmt
    have hv : validateOrderForProcessing o = some ⟨"order amount exceeds limit"⟩ := by
      unfold validateOrderForProcessing
      rw [if_pos hAmt]
    have hP : processOrder o wid t =
        { order := o, processingTime := t, workerID := wid, success := false,
          error := "order amount exceeds limit",
          result := "Order processing failed" } := by
      unfold processOrder
      rw [hv]
      rfl
    rw [hP]
    refine ⟨rfl, rfl, ?_, ?_, by simp [applyStats], by simp [applyStats]⟩
    · show Mentions "amount" "order amount exceeds limit"
      decide
    · show Mentions "limit" "order amount exceeds limit"
      decide
  · intro hAmt hItems
    have hv : validateOrderForProcessing o = some ⟨"too many items in order"⟩ := by
      unfold validateOrderForProcessing
      rw [if_neg (not_lt.mpr hAmt), if_pos hItems]
    have hP : processOrder o wid t =
        { order := o, processingTime := t, workerID := wid, success := false,
          error := "too many items in order",
          result := "Order processing failed" } := by
      unfold processOrder
      rw [hv]
      rfl
    rw [hP]
    refine ⟨rfl, rfl, ?_, by simp [applyStats], by simp [applyStats]⟩
    show Mentions "item" "too many items in order"
    decide

/-- C2 witness: both failure modes at concrete orders — amount 20000
(amount-limit message) and amount 500 with 51 items (item-count message) —
with the counter effects at the initial pool state. -/
theorem validation_failure_accounting_witness :
    ((processOrder oOverBoth 0 3).success = false ∧
      (processOrder oOverBoth 0 3).error = "order amount exceeds limit" ∧
      Mentions "amount" (processOrder oOverBoth 0 3).error ∧
      Mentions "limit" (processOrder oOverBoth 0 3).error ∧
      (applyStats t0 (processOrder oOverBoth 0 3)).errorCount = t0.errorCount + 1 ∧
      (applyStats t0 (processOrder oOverBoth 0 3)).successCount = t0.successCount) ∧
    ((processOrder { oOverBoth with amount := 500 } 0 3).success = false ∧
      (processOrder { oOverBoth with amount := 500 } 0 3).error = "too many items in order" ∧
      Mentions "item" (processOrder { oOverBoth with amount := 500 } 0 3).error ∧
      (applyStats t0 (processOrder { oOverBoth with amount := 500 } 0 3)).errorCount
        = t0.errorCount + 1 ∧
      (applyStats t0 (processOrder { oOverBoth with amount := 500 } 0 3)).successCount
        = t0.successCount) :=
  ⟨(validation_failure_accounting oOverBoth 0 3 t0).1 (by decide),
   (validation_failure_accounting { oOverBoth with amount := 500 } 0 3 t0).2
      (by decide) (by decide)⟩

/-- C3: in every reachable state in which either queue has been closed, the
cancellation signal has fired and every worker has exited its loop — so
`Close` never closes a queue while a worker is still running, and closure
happens only after cancellation and the wait-for-all-workers step. -/
theorem queues_closed_only_after_workers_exit (w b : Nat) (s : PoolState)
    (hr : Reachable w b s)
    (hcl : s.ordersClosed = true ∨ s.resultsClosed = true) :
    s.cancelled = true ∧ ∀ st ∈ s.ws, st = WorkerState.stopped := by
  have hInv := inv_reachable hr
  have hph : s.phase = ClosePhase.ordersDone ∨ s.phase = ClosePhase.done := by
    rcases hcl with h1 | h1
    · exact hInv.ordersClosed_phase.mp h1
    · exact Or.inr (hInv.resultsClosed_phase.mp h1)
  refine ⟨?_, ?_⟩
  · refine hInv.cancel_phase ?_
    rcases hph with h1 | h1 <;> rw [h1] <;> simp
  · exact hInv.stopped_after_wait (Or.elim hph (fun h1 => Or.inr (Or.inl h1))
      (fun h1 => Or.inr (Or.inr h1)))

/-- C3 witness: the fully closed state `t10` of the concrete execution —
both queues closed, cancellation fired, its single worker stopped. -/
theorem queues_closed_only_after_workers_exit_witness :
    t10.cancelled = true ∧ ∀ st ∈ t10.ws, st = WorkerState.stopped :=
  queues_closed_only_after_workers_exit 1 1 t10 reach_t10 (Or.inr rfl)

/-- C4: admission is a total (hence non-blocking) function; once a pool
whose queue started empty has admitted a batch of exactly `buf` tasks with
none dequeued, the next admission attempt is refused, the state — in
particular each of the four counters — is returned unchanged, and the
batch admissions themselves never touched any counter. -/
theorem admission_at_capacity_rejected (s : PoolState) (os : List Order)
    (o : Order) (hempty : s.orders = []) (hK : os.length = s.buf) :
    (admitOrder (admitAll s os) o).snd = false ∧
    (admitOrder (admitAll s os) o).fst = admitAll s os ∧
    (admitAll s os).processed = s.processed ∧
    (admitAll s os).successCount = s.successCount ∧
    (admitAll s os).errorCount = s.errorCount ∧
    (admitAll s os).totalTime = s.totalTime := by
  have hfit : s.orders.length + os.length ≤ s.buf := by
    rw [hempty, hK]; simp
  obtain ⟨h1, h2, h3, h4, h5, h6⟩ := admitAll_fills os s hfit
  have hfull : ¬ (admitAll s os).orders.length < (admitAll s os).buf := by
    rw [h1, h2, hempty, hK]
    simp
  refine ⟨?_, ?_, h3, h4, h5, h6⟩
  · unfold admitOrder
    rw [if_neg hfull]
  · unfold admitOrder
    rw [if_neg hfull]

/-- C4 witness: buffer capacity 2, two admitted tasks, third attempt
refused with the state and all counters unchanged. -/
theorem admission_at_capacity_rejected_witness :
    (admitOrder (admitAll cSt0 [oA, oA]) oA).snd = false ∧
    (admitOrder (admitAll cSt0 [oA, oA]) oA).fst = admitAll cSt0 [oA, oA] ∧
    (admitAll cSt0 [oA, oA]).processed = cSt0.processed ∧
    (admitAll cSt0 [oA, oA]).successCount = cSt0.successCount ∧
    (admitAll cSt0 [oA, oA]).errorCount = cSt0.errorCount ∧
    (admitAll cSt0 [oA, oA]).totalTime = cSt0.totalTime :=
  admission_at_capacity_rejected cSt0 [oA, oA] oA rfl rfl

/-- C5: the shared counters never decrease along any transition from a
reachable state; and in any reachable drained state — empty input queue, no
worker holding a task, nothing dropped by shutdown — the processed counter
equals the number of admitted tasks and success + error equals it too. -/
theorem counter_consistency (w b : Nat) (s s2 : PoolState)
    (hr : Reachable w b s) :
    (Step s s2 → s.processed ≤ s2.processed ∧
      s.successCount ≤ s2.successCount ∧ s.errorCount ≤ s2.errorCount ∧
      s.totalTime ≤ s2.totalTime) ∧
    (s.orders = [] → s.dropped = 0 →
      (∀ st ∈ s.ws, st = WorkerState.idle ∨ st = WorkerState.stopped) →
      s.processed = (s.admitted : Int) ∧
      s.successCount + s.errorCount = (s.admitted : Int)) := by
  have hInv := inv_reachable hr
  constructor
  · intro hstep
    cases hstep with
    | countResult i r hw =>
      have hmem : WorkerState.counting r ∈ s.ws := mem_of_get_eq_some hw
      have ht : (0 : Int) ≤ r.processingTime := hInv.time_ok _ hmem
      refine ⟨?_, ?_, ?_, ?_⟩ <;> simp only [applyStats] <;>
        cases hq : r.success <;> simp [hq] <;> omega
    | admitOk o hopen hroom => exact ⟨le_refl _, le_refl _, le_refl _, le_refl _⟩
    | dequeue j o rest tm ht hq hw => exact ⟨le_refl _, le_refl _, le_refl _, le_refl _⟩
    | stopCancelled j hw hc => exact ⟨le_refl _, le_refl _, le_refl _, le_refl _⟩
    | stopClosed j hw hcl hq => exact ⟨le_refl _, le_refl _, le_refl _, le_refl _⟩
    | pushResult j r hw hroom => exact ⟨le_refl _, le_refl _, le_refl _, le_refl _⟩
    | dropResult j r hw hc => exact ⟨le_refl _, le_refl _, le_refl _, le_refl _⟩
    | consume r rest hq => exact ⟨le_refl _, le_refl _, le_refl _, le_refl _⟩
    | closeCancel hp => exact ⟨le_refl _, le_refl _, le_refl _, le_refl _⟩
    | closeWait hp hall => exact ⟨le_refl _, le_refl _, le_refl _, le_refl _⟩
    | closeOrders hp => exact ⟨le_refl _, le_refl _, le_refl _, le_refl _⟩
    | closeResults hp => exact ⟨le_refl _, le_refl _, le_refl _, le_refl _⟩
  · intro hq hd hws
    have hbz : busyCount s.ws = 0 := by
      refine busyCount_eq_zero ?_
      intro st hst
      rcases hws st hst with h | h <;> rw [h] <;> rfl
    have hc := hInv.count_eq
    rw [hq, hd, hbz] at hc
    simp only [List.length_nil, Nat.cast_zero, add_zero] at hc
    exact ⟨by omega, by rw [hInv.se_eq]; omega⟩

/-- C5 witness: the drained state `t4` of the concrete execution — one task
admitted and fully accounted (processed = 1 = success + error), and the
subsequent consume step does not decrease any counter. -/
theorem counter_consistency_witness :
    t4.processed = (t4.admitted : Int) ∧
    t4.successCount + t4.errorCount = (t4.admitted : Int) :=
  (counter_consistency 1 1 t4 t5 reach_t4).2 rfl rfl (by decide)

/-- C6: `IsHealthy` is true exactly when cancellation has not fired and the
input queue is strictly below capacity; it is false once `Close` has fired
cancellation, and false whenever the queue holds exactly `buf` tasks. -/
theorem isHealthy_spec (s : PoolState) :
    (IsHealthy s = true ↔ (s.cancelled = false ∧ s.orders.length < s.buf)) ∧
    (s.cancelled = true → IsHealthy s = false) ∧
    (s.orders.length = s.buf → IsHealthy s = false) := by
  refine ⟨?_, ?_, ?_⟩
  · simp [IsHealthy]
  · intro hc; simp [IsHealthy, hc]
  · intro hl; simp [IsHealthy, hl]

/-- C6 witness: at the cancelled state `t6` the pool reports unhealthy,
and at the full-queue state `t1` (capacity 1, one queued task) it also
reports unhealthy. -/
theorem isHealthy_spec_witness :
    IsHealthy t6 = false ∧ IsHealthy t1 = false :=
  ⟨(isHealthy_spec t6).2.1 rfl, (isHealthy_spec t1).2.2 rfl⟩

/-- C7 counterexample: a single admission step — which completes no task
and changes none of the counters — changes the `Stats` snapshot, because
the snapshot includes the live queue length.  So two `Stats()` calls with
no intervening task completions need not be identical in every field. -/
theorem stats_idempotence_counterexample :
    Step cSt0 cSt1 ∧
    cSt1.processed = cSt0.processed ∧
    cSt1.successCount = cSt0.successCount ∧
    cSt1.errorCount = cSt0.errorCount ∧
    Stats cSt1 0 ≠ Stats cSt0 0 :=
  ⟨Step.admitOk cSt0 oA rfl (by decide), rfl, rfl, rfl, by decide⟩

/-- C7 (amended): `Stats` is a pure function of the pool state (so it
mutates nothing), and across any sequence of transitions that complete no
task, the counter-derived fields of the snapshot — total processed, success
count, error count, average processing time, active workers — are
unchanged; the queue-length field may change with intervening admissions
or dequeues, and the uptime field with elapsed time. -/
theorem stats_stable_without_completions (s s2 : PoolState) (u : Int)
    (h : Relation.ReflTransGen NoCompletion s s2) :
    (Stats s2 u).totalProcessed = (Stats s u).totalProcessed ∧
    (Stats s2 u).successCount = (Stats s u).successCount ∧
    (Stats s2 u).errorCount = (Stats s u).errorCount ∧
    (Stats s2 u).averageProcessTime = (Stats s u).averageProcessTime ∧
    (Stats s2 u).activeWorkers = (Stats s u).activeWorkers := by
  obtain ⟨h1, h2, h3, h4, h5⟩ := noCompletion_chain h
  refine ⟨h1, h2, h3, ?_, h5⟩
  show (if 0 < s2.processed then (s2.totalTime : ℚ) / (s2.processed : ℚ) else 0)
      = (if 0 < s.processed then (s.totalTime : ℚ) / (s.processed : ℚ) else 0)
  rw [h1, h4]

/-- C7 witness: across the no-completion admission step from `cSt0` to
`cSt1`, all five counter-derived snapshot fields agree. -/
theorem stats_stable_without_completions_witness :
    (Stats cSt1 0).totalProcessed = (Stats cSt0 0).totalProcessed ∧
    (Stats cSt1 0).successCount = (Stats cSt0 0).successCount ∧
    (Stats cSt1 0).errorCount = (Stats cSt0 0).errorCount ∧
    (Stats cSt1 0).averageProcessTime = (Stats cSt0 0).averageProcessTime ∧
    (Stats cSt1 0).activeWorkers = (Stats cSt0 0).activeWorkers :=
  stats_stable_without_completions cSt0 cSt1 0
    (Relation.ReflTransGen.single ⟨Step.admitOk cSt0 oA rfl (by decide), rfl⟩)

/-- C8: if cancellation has fired while worker `i` holds a computed result
`r` it has not yet pushed, the worker can stop, dropping `r` silently: the
output queue and all four counters are unchanged, the worker is stopped,
and it stays stopped in every later state — the result is never pushed or
counted by it. -/
theorem shutdown_drops_unpushed_result (s : PoolState) (i : Nat)
    (r : ProcessedOrder) (hw : s.ws[i]? = some (WorkerState.pushing r))
    (hc : s.cancelled = true) :
    Step s (dropState s i) ∧
    (dropState s i).results = s.results ∧
    (dropState s i).processed = s.processed ∧
    (dropState s i).successCount = s.successCount ∧
    (dropState s i).errorCount = s.errorCount ∧
    (dropState s i).totalTime = s.totalTime ∧
    (dropState s i).ws[i]? = some WorkerState.stopped ∧
    ∀ s2, Reaches (dropState s i) s2 → s2.ws[i]? = some WorkerState.stopped := by
  have hlt : i < s.ws.length := (List.getElem?_eq_some.mp hw).1
  have hstopped : (dropState s i).ws[i]? = some WorkerState.stopped := by
    show (s.ws.set i WorkerState.stopped)[i]? = some WorkerState.stopped
    exact List.getElem?_set_eq_of_lt _ hlt
  exact ⟨Step.dropResult s i r hw hc, rfl, rfl, rfl, rfl, rfl, hstopped,
    fun s2 h2 => stopped_persists h2 hstopped⟩

/-- C8 witness: in the reachable state `u3` — cancellation fired while the
single worker holds the computed result `rA` — the drop transition loses
`rA` without touching queue or counters, and the worker never runs again. -/
theorem shutdown_drops_unpushed_result_witness :
    Step u3 (dropState u3 0) ∧
    (dropState u3 0).results = u3.results ∧
    (dropState u3 0).processed = u3.processed ∧
    (dropState u3 0).successCount = u3.successCount ∧
    (dropState u3 0).errorCount = u3.errorCount ∧
    (dropState u3 0).totalTime = u3.totalTime ∧
    (dropState u3 0).ws[0]? = some WorkerState.stopped ∧
    ∀ s2, Reaches (dropState u3 0) s2 → s2.ws[0]? = some WorkerState.stopped :=
  shutdown_drops_unpushed_result u3 0 rA rfl rfl

/-- C9: the snapshot's average processing time is the cumulative-time
counter divided by the processed counter, 0 when nothing was processed
(equivalently, average × processed recovers cumulative time when the
processed counter is positive), and the snapshot reports the current
input-queue length and the elapsed uptime. -/
theorem stats_average_and_fields (s : PoolState) (u : Int) :
    (Stats s u).averageProcessTime =
      (if 0 < s.processed then (s.totalTime : ℚ) / (s.processed : ℚ) else 0) ∧
    (s.processed = 0 → (Stats s u).averageProcessTime = 0) ∧
    (0 < s.processed →
      (Stats s u).averageProcessTime * (s.processed : ℚ) = (s.totalTime : ℚ)) ∧
    (Stats s u).queueLength = s.orders.length ∧
    (Stats s u).uptime = u := by
  refine ⟨rfl, ?_, ?_, rfl, rfl⟩
  · intro h0
    show (if 0 < s.processed then (s.totalTime : ℚ) / (s.processed : ℚ) else 0) = 0
    rw [h0]
    simp
  · intro hpos
    have hne : (s.processed : ℚ) ≠ 0 := by
      exact_mod_cast Int.ne_of_gt hpos
    show (if 0 < s.processed then (s.totalTime : ℚ) / (s.processed : ℚ) else 0)
        * (s.processed : ℚ) = (s.totalTime : ℚ)
    rw [if_pos hpos]
    exact div_mul_cancel₀ _ hne

/-- C9 witness: at the drained state `t4` (one task processed in 5 ms,
uptime 7) the average × processed recovers the cumulative time, the
average matches the quotient, and queue length and uptime are reported. -/
theorem stats_average_and_fields_witness :
    (Stats t4 7).averageProcessTime =
      (if 0 < t4.processed then (t4.totalTime : ℚ) / (t4.processed : ℚ) else 0) ∧
    (Stats t4 7).averageProcessTime * (t4.processed : ℚ) = (t4.totalTime : ℚ) ∧
    (Stats t4 7).queueLength = t4.orders.length ∧
    (Stats t4 7).uptime = 7 :=
  ⟨(stats_average_and_fields t4 7).1,
   (stats_average_and_fields t4 7).2.2.1 (by decide),
   (stats_average_and_fields t4 7).2.2.2.1,
   (stats_average_and_fields t4 7).2.2.2.2⟩

/-- C10: in every reachable state of a pool started with `w` workers —
whatever operations have happened, including a complete `Close` — the
snapshot's active-worker field equals `w`: it is the stored configuration
value, not a live count of running workers. -/
theorem activeWorkers_is_configuration (w b : Nat) (s : PoolState) (u : Int)
    (hr : Reachable w b s) :
    (Stats s u).activeWorkers = w :=
  (inv_reachable hr).workers_eq

/-- C10 witness: in the fully closed state `t10`, whose only worker has
stopped, the snapshot still reports 1 active worker. -/
theorem activeWorkers_is_configuration_witness :
    (Stats t10 3).activeWorkers = 1 ∧ t10.ws[0]? = some WorkerState.stopped :=
  ⟨activeWorkers_is_configuration 1 1 t10 3 reach_t10, rfl⟩

end OrderProcessor
